import Mathlib

/-!
Verification development for the GanttAPP project/task store
(`src/core/stores/ProjectStore.js`) and its startup migration guard
(`migrateLegacyStorage` in the application entry component).

Conventions of the embedding:
* JavaScript `Date` objects are modelled by their epoch value in
  milliseconds (`Int`); an invalid `Date` (`NaN` time value) is modelled
  explicitly where it can occur.
* Host date/number parsing of strings (`new Date(string)`, `Number(string)`)
  is modelled by decimal integer parsing (`parseDate`): strings in this
  development denote instants by their decimal millisecond value, and the
  "unparsable string" of the specification is exactly a string that
  `parseDate` rejects.  The host round-trip law
  `new Date(d.toISOString()).getTime() = d.getTime()` is preserved by this
  modelling.
* Store operations are `async` in the source but the host is single threaded
  and every operation runs to completion, so each operation is embedded as a
  total state transformer returning the state observed after the operation
  (the transient `loading = true` window is not observable at operation
  boundaries).
* `try/catch` blocks whose body cannot fail in the model are embedded as the
  body alone; catches around host calls that can genuinely fail
  (`JSON.parse`, `JSON.stringify`, iteration of non-iterables, property
  access on `null`) are modelled with `Option`/`Except`.
-/

namespace GanttApp

/-- One day in milliseconds (`24 * 60 * 60 * 1000` in the source). -/
def dayMs : Int := 24 * 60 * 60 * 1000

/-- One week in milliseconds (`7 * 24 * 60 * 60 * 1000` in the source). -/
def weekMs : Int := 7 * 24 * 60 * 60 * 1000

/-- Decimal digit value of a character (`'0'`-`'9'`), if any. -/
def digitVal? (c : Char) : Option Nat :=
  if 48 ≤ c.toNat ∧ c.toNat ≤ 57 then some (c.toNat - 48) else none

/-- Reads a non-empty all-digit suffix as a natural number. -/
def parseDigits (acc : Nat) : List Char → Option Nat
  | [] => some acc
  | c :: cs =>
      match digitVal? c with
      | some d => parseDigits (acc * 10 + d) cs
      | none => none

/-- Model of the host's string-to-date parsing (`new Date(string)` /
`Date.parse`): strings denote instants by their (possibly negative)
decimal millisecond value; a string the host cannot parse is one this
reading rejects. -/
def parseDate (s : String) : Option Int :=
  match s.data with
  | [] => none
  | c :: cs =>
      if c.toNat = 45 then
        match cs with
        | [] => none
        | _ => (parseDigits 0 cs).map (fun n => -(n : Int))
      else (parseDigits 0 (c :: cs)).map (fun n => (n : Int))

/-- Model of `Date.prototype.toISOString` for a valid date, rendered so that
`parseDate (isoString t) = some t`, mirroring the host round-trip law. -/
def isoString (t : Int) : String := toString t

/-- The `TaskDependency` from the store's data model: `{ taskId, type }`. -/
structure TaskDependency where
  taskId : String
  type : String
deriving DecidableEq, Repr

/-- The value held by a date-valued field of an in-memory task or project.
`date t` is a valid `Date`; the remaining constructors record the raw
JavaScript values that the store's own code paths can leave in a date field:
* `emptyObj` — the empty plain object produced by spreading a `Date`
  (`{...someDate}` copies no own properties), which is what
  `validateAndFixDates` leaves behind (see `fixDatesInTask`);
* `rawNum n` / `rawStr s` / `rawNan` / `rawNull` — falsy raw inputs that
  `updateTask` merges unprocessed (its `if (updates.startDate)` truthiness
  gate skips them, but they stay in `processedUpdates` and are spread into
  the task). -/
inductive DateVal where
  | date (t : Int)
  | emptyObj
  | rawNum (n : Int)
  | rawStr (s : String)
  | rawNan
  | rawNull
deriving DecidableEq, Repr

/-- JavaScript truthiness of a value sitting in a date field. -/
def DateVal.truthy : DateVal → Bool
  | .date _ => true
  | .emptyObj => true
  | .rawNum n => n != 0
  | .rawStr s => s != ""
  | .rawNan => false
  | .rawNull => false

/-- A JavaScript number: either an integer value or `NaN`. -/
inductive JNum where
  | num (n : Int)
  | nan
deriving DecidableEq, Repr

/-- The `Task` from the store's data model. -/
structure Task where
  id : String
  name : String
  description : String
  startDate : DateVal
  endDate : DateVal
  completion : JNum
  dependencies : List TaskDependency
  projectId : String
  createdAt : DateVal
  updatedAt : DateVal
deriving DecidableEq, Repr

/-- The `Project` from the store's data model. -/
structure Project where
  id : String
  name : String
  description : String
  tasks : List Task
  createdAt : DateVal
  updatedAt : DateVal
deriving DecidableEq, Repr

/-- The store's state: `projects`, `currentProject`, `loading`, `error`. -/
structure StoreState where
  projects : List Project
  currentProject : Option Project
  loading : Bool
  error : Option String
deriving DecidableEq, Repr

/-- The store's initial state. -/
def initialState : StoreState :=
  { projects := [], currentProject := none, loading := false, error := none }

/-! ### Raw date inputs accepted by `createTask`

`createTask` branches on `instanceof Date` / `typeof` of `taskData.startDate`
and `taskData.endDate`; the cases below cover the branch structure:
a valid `Date`, an invalid `Date`, a string, a finite number, `NaN`
(`typeof NaN === 'number'`), and anything else (missing, `null`, objects). -/
inductive CDateInput where
  | cDate (t : Int)
  | cInvalidDate
  | cStr (s : String)
  | cNum (n : Int)
  | cNanNum
  | cOther
deriving DecidableEq, Repr

/-- The `Date` value `createTask` first builds for `startDate`
(lines 195-201): `some t` is a valid date, `none` an invalid one.
A missing/other start date becomes `new Date()` (the current time `now`). -/
def rawStartDate (now : Int) : CDateInput → Option Int
  | .cDate t => some t
  | .cInvalidDate => none
  | .cStr s => parseDate s
  | .cNum n => some n
  | .cNanNum => none
  | .cOther => some now

/-- The `Date` value `createTask` first builds for `endDate`
(lines 203-210): a missing/other end date becomes
`new Date(Date.now() + 7 * 24 * 60 * 60 * 1000)`. -/
def rawEndDate (now : Int) : CDateInput → Option Int
  | .cDate t => some t
  | .cInvalidDate => none
  | .cStr s => parseDate s
  | .cNum n => some n
  | .cNanNum => none
  | .cOther => some (now + weekMs)

/-- The `startDate` after the validity check (lines 213-216): an invalid start
date is replaced by the current time. -/
def fixedStartDate (now : Int) (sd : CDateInput) : Int :=
  (rawStartDate now sd).getD now

/-- The `endDate` after the validity check (lines 218-221): an invalid end date
is replaced by `startDate + 7 days` (using the already-fixed start date). -/
def fixedEndDate (now : Int) (sd ed : CDateInput) : Int :=
  (rawEndDate now ed).getD (fixedStartDate now sd + weekMs)

/-- The `endDate` after the ordering correction (lines 224-227): if
`endDate <= startDate` the end date becomes `startDate + 1 day`. -/
def resolvedEndDate (now : Int) (sd ed : CDateInput) : Int :=
  let s := fixedStartDate now sd
  let e := fixedEndDate now sd ed
  if e ≤ s then s + dayMs else e

/-- The completion input accepted by `createTask` (`taskData.completion`):
a finite number, `NaN`, a string, or missing. -/
inductive CompletionInput where
  | cnum (n : Int)
  | cnan
  | cstr (s : String)
  | cmissing
deriving DecidableEq, Repr

/-- JavaScript truthiness of a completion input
(`taskData.completion || 0` replaces a falsy value by `0`). -/
def CompletionInput.truthy : CompletionInput → Bool
  | .cnum n => n != 0
  | .cnan => false
  | .cstr s => s != ""
  | .cmissing => false

/-- The `Number(x)` coercion applied by `Math.max`/`Math.min` to its arguments;
a non-numeric string coerces to `NaN`. -/
def CompletionInput.toNumber : CompletionInput → JNum
  | .cnum n => .num n
  | .cnan => .nan
  | .cstr s => match parseDate s with
      | some n => .num n
      | none => .nan
  | .cmissing => .nan

/-- The `Math.max(0, x)`: `NaN` propagates. -/
def jsMax0 : JNum → JNum
  | .num n => .num (max 0 n)
  | .nan => .nan

/-- The `Math.min(100, x)`: `NaN` propagates. -/
def jsMin100 : JNum → JNum
  | .num n => .num (min 100 n)
  | .nan => .nan

/-- Line 250: `Math.min(100, Math.max(0, taskData.completion || 0))`.
Note that a truthy non-numeric string reaches `Math.max` unreplaced and
coerces to `NaN`, which both `Math.max` and `Math.min` propagate. -/
def resolvedCompletion (c : CompletionInput) : JNum :=
  jsMin100 (jsMax0 (if c.truthy then c.toNumber else .num 0))

/-- The `taskData` as consumed by `createTask` (lines 244-255): `Option` marks a
missing (or, for `name`/`description`, otherwise falsy) field; a
non-array `dependencies` is `none` (the `Array.isArray` check). -/
structure TaskInput where
  name : Option String := none
  description : Option String := none
  startDate : CDateInput := .cOther
  endDate : CDateInput := .cOther
  completion : CompletionInput := .cmissing
  dependencies : Option (List TaskDependency) := none
deriving DecidableEq, Repr

/-- The `taskData.name || 'Nouvelle tâche'`: a missing or empty name falls back
to the default (both are falsy). -/
def resolvedName (n : Option String) : String :=
  match n with
  | some s => if s = "" then "Nouvelle tâche" else s
  | none => "Nouvelle tâche"

/-- The `newTask` object `createTask` builds (lines 244-255). -/
def buildNewTask (td : TaskInput) (tid pid : String) (now : Int) : Task :=
  { id := tid
    name := resolvedName td.name
    description := td.description.getD ""
    startDate := .date (fixedStartDate now td.startDate)
    endDate := .date (resolvedEndDate now td.startDate td.endDate)
    completion := resolvedCompletion td.completion
    dependencies := td.dependencies.getD []
    projectId := pid
    createdAt := .date now
    updatedAt := .date now }

/-! ### Update inputs accepted by `updateTask` / `updateProject` -/

/-- A raw date value supplied in `updateTask`'s `updates.startDate` /
`updates.endDate`: a valid `Date`, an invalid `Date`, a string, a finite
number, `NaN`, or an explicit `null` (an absent field is `Option.none` in
`TaskUpdates`). -/
inductive UDateInput where
  | uDate (t : Int)
  | uInvalidDate
  | uStr (s : String)
  | uNum (n : Int)
  | uNanNum
  | uNull
deriving DecidableEq, Repr

/-- The `updateTask`'s per-field date handling (lines 305-339).  The field is
processed only when truthy (`if (updates.startDate)`): a valid conversion
replaces it by the `Date`, an invalid one deletes it from the update set
(`none`, so the task keeps its previous value).  A falsy value skips the
processing entirely but stays in `processedUpdates` and is merged raw. -/
def processUpdateDate : UDateInput → Option DateVal
  | .uDate t => some (.date t)
  | .uInvalidDate => none
  | .uStr s =>
      if s = "" then some (.rawStr "")
      else match parseDate s with
        | some t => some (.date t)
        | none => none
  | .uNum n => if n = 0 then some (.rawNum 0) else some (.date n)
  | .uNanNum => some .rawNan
  | .uNull => some .rawNull

/-- The `updates` object consumed by `updateTask`; `none` marks an absent
field (task `id` and `projectId` are immutable per the data model and are
not update fields). -/
structure TaskUpdates where
  name : Option String := none
  description : Option String := none
  startDate : Option UDateInput := none
  endDate : Option UDateInput := none
  completion : Option JNum := none
  dependencies : Option (List TaskDependency) := none
deriving DecidableEq, Repr

/-- The `{ ...task, ...processedUpdates, updatedAt: new Date() }` (line 347). -/
def applyTaskUpdates (upd : TaskUpdates) (now : Int) (t : Task) : Task :=
  { t with
    name := upd.name.getD t.name
    description := upd.description.getD t.description
    startDate := match upd.startDate with
      | none => t.startDate
      | some u => (processUpdateDate u).getD t.startDate
    endDate := match upd.endDate with
      | none => t.endDate
      | some u => (processUpdateDate u).getD t.endDate
    completion := upd.completion.getD t.completion
    dependencies := upd.dependencies.getD t.dependencies
    updatedAt := .date now }

/-- The `updates` object consumed by `updateProject` (project `id` is
immutable per the data model; `tasks` are managed by the task operations). -/
structure ProjectUpdates where
  name : Option String := none
  description : Option String := none
deriving DecidableEq, Repr

/-! ### Store operations

Each operation is the state observed after the operation completes.  The
`catch` blocks of the source set `error` and reset `loading`; in the model
the only reachable failure is the `'Aucun projet sélectionné'` guard of the
task/dependency operations. -/

/-- The `createProject(name, description)`: appends a fresh project and selects
it (lines 63-90); `pid` is the `uuidv4()` value, `now` the clock. -/
def createProject (name description pid : String) (now : Int)
    (st : StoreState) : StoreState :=
  let newProject : Project :=
    { id := pid, name := name, description := description, tasks := []
      createdAt := .date now, updatedAt := .date now }
  { projects := st.projects ++ [newProject]
    currentProject := some newProject
    loading := false
    error := none }

/-- The `updateProject(projectId, updates)` (lines 98-125): merges `updates`
into the matching project; if the current project was updated,
`currentProject` is re-looked-up in the updated list (`find(...) || null`). -/
def updateProject (projectId : String) (upd : ProjectUpdates) (now : Int)
    (st : StoreState) : StoreState :=
  let updatedProjects := st.projects.map fun p =>
    if p.id == projectId then
      { p with
        name := upd.name.getD p.name
        description := upd.description.getD p.description
        updatedAt := .date now }
    else p
  { projects := updatedProjects
    currentProject :=
      match st.currentProject with
      | some c =>
          if c.id == projectId then
            updatedProjects.find? (fun p => p.id == projectId)
          else some c
      | none => none
    loading := false
    error := none }

/-- The `deleteProject(projectId)` (lines 132-149). -/
def deleteProject (projectId : String) (st : StoreState) : StoreState :=
  { projects := st.projects.filter (fun p => !(p.id == projectId))
    currentProject :=
      match st.currentProject with
      | some c => if c.id == projectId then none else some c
      | none => none
    loading := false
    error := none }

/-- The `selectProject(projectId)` (lines 156-174): a missing id records an
error and leaves `currentProject` unchanged. -/
def selectProject (projectId : String) (st : StoreState) : StoreState :=
  match st.projects.find? (fun p => p.id == projectId) with
  | some project => { st with currentProject := some project, error := none }
  | none =>
      { st with
        error := some ("Échec de sélection du projet: Projet avec ID "
          ++ projectId ++ " non trouvé") }

/-- The error state a task/dependency operation reaches when no project is
selected: its `catch` records the message and resets `loading` (the state
mutation in its `set` has not run). -/
def noProjectFailure (prefixMsg : String) (st : StoreState) : StoreState :=
  { st with
    loading := false
    error := some (prefixMsg ++ "Aucun projet sélectionné") }

/-- Installs a rebuilt current project both as `currentProject` and in
`projects` — the trailing `set` shared by all task/dependency operations
(e.g. lines 257-277): the project list maps the matching id to the rebuilt
object. -/
def installCurrent (c' : Project) (st : StoreState) : StoreState :=
  { projects := st.projects.map (fun p => if p.id == c'.id then c' else p)
    currentProject := some c'
    loading := false
    error := none }

/-- The `createTask(taskData)` (lines 181-285): requires a current project,
builds `newTask` (date policy above), appends it to the current project's
tasks and mirrors the rebuilt project into `projects`. -/
def createTask (td : TaskInput) (tid : String) (now : Int)
    (st : StoreState) : StoreState :=
  match st.currentProject with
  | none => noProjectFailure "Échec de création de la tâche: " st
  | some c =>
      let newTask := buildNewTask td tid c.id now
      installCurrent
        { c with tasks := c.tasks ++ [newTask], updatedAt := .date now } st

/-- The `updateTask(taskId, updates)` (lines 293-376): per-field date
processing (`processUpdateDate`), then a merge into the matching task.
No ordering check and no completion clamping is performed here. -/
def updateTask (taskId : String) (upd : TaskUpdates) (now : Int)
    (st : StoreState) : StoreState :=
  match st.currentProject with
  | none => noProjectFailure "Échec de mise à jour de la tâche: " st
  | some c =>
      let updatedTasks := c.tasks.map fun t =>
        if t.id == taskId then applyTaskUpdates upd now t else t
      installCurrent
        { c with tasks := updatedTasks, updatedAt := .date now } st

/-- The `deleteTask(taskId)` (lines 383-429): removes the task from the current
project and strips dependencies on it from the current project's remaining
tasks. -/
def deleteTask (taskId : String) (now : Int) (st : StoreState) : StoreState :=
  match st.currentProject with
  | none => noProjectFailure "Échec de suppression de la tâche: " st
  | some c =>
      let updatedTasks := c.tasks.filter (fun t => !(t.id == taskId))
      let cleanedTasks := updatedTasks.map fun t =>
        { t with
          dependencies := t.dependencies.filter (fun d => !(d.taskId == taskId)) }
      installCurrent
        { c with tasks := cleanedTasks, updatedAt := .date now } st

/-- The duplicate check of `addDependency` (lines 454-456). -/
def depMatches (dependency : TaskDependency) (dep : TaskDependency) : Bool :=
  dep.taskId == dependency.taskId && dep.type == dependency.type

/-- The per-task body of `addDependency` (lines 450-465). -/
def addDependencyToTask (taskId : String) (dependency : TaskDependency)
    (now : Int) (t : Task) : Task :=
  if t.id == taskId then
    match t.dependencies.find? (depMatches dependency) with
    | some _ => t
    | none =>
        { t with
          dependencies := t.dependencies ++ [dependency]
          updatedAt := .date now }
  else t

/-- The `addDependency(taskId, dependency)` (lines 437-492): appends the
dependency to the matching task unless an equal `(taskId, type)` pair is
already present. -/
def addDependency (taskId : String) (dependency : TaskDependency) (now : Int)
    (st : StoreState) : StoreState :=
  match st.currentProject with
  | none => noProjectFailure "Échec d'ajout de dépendance: " st
  | some c =>
      let updatedTasks := c.tasks.map (addDependencyToTask taskId dependency now)
      installCurrent
        { c with tasks := updatedTasks, updatedAt := .date now } st

/-- The `removeDependency(taskId, dependencyTaskId)` (lines 500-548). -/
def removeDependency (taskId dependencyTaskId : String) (now : Int)
    (st : StoreState) : StoreState :=
  match st.currentProject with
  | none => noProjectFailure "Échec de suppression de dépendance: " st
  | some c =>
      let updatedTasks := c.tasks.map fun t =>
        if t.id == taskId then
          { t with
            dependencies :=
              t.dependencies.filter (fun d => !(d.taskId == dependencyTaskId))
            updatedAt := .date now }
        else t
      installCurrent
        { c with tasks := updatedTasks, updatedAt := .date now } st

/-- The `clearError()` (line 553). -/
def clearError (st : StoreState) : StoreState :=
  { st with error := none }

/-- The `clearCache()` (lines 558-578): resets the state; if the host storage
removal throws (`errMsg = some m`), the state is reset all the same with the
error recorded. -/
def clearCache (errMsg : Option String) (_st : StoreState) : StoreState :=
  match errMsg with
  | none =>
      { projects := [], currentProject := none, loading := false, error := none }
  | some m =>
      { projects := [], currentProject := none, loading := false
        error := some ("Failed to clear cache: " ++ m) }

/-! ### `validateAndFixDates` (lines 583-659)

`fixDatesInObject` walks the object graph.  On an object it (1) repairs each
truthy date field that is not a valid `Date` (conversion attempt, then a
per-field default), (2) corrects `endDate <= startDate`, and (3) recurses
into every truthy object-valued field.  Step (3) recurses into the `Date`
objects produced by steps (1)-(2) themselves, and `{...someDate}` spreads to
an empty plain object with no date fields, so the recursion turns EVERY
truthy date field into `emptyObj` — including valid dates, and including the
just-repaired defaults.  A falsy raw value (`0`, `''`, `NaN`, `null`) is
skipped by every step and survives unchanged.  The typed functions below are
`fixDatesInObject` specialised to the `Task` / `Project` shapes. -/

/-- Net effect of `fixDatesInObject` on one date-valued field of a task or
project (see the derivation above). -/
def fixDateField (d : DateVal) : DateVal :=
  if d.truthy then .emptyObj else d

/-- The `fixDatesInObject` on a `Task`: date fields per `fixDateField`;
`dependencies` contains only string-valued fields and is returned
unchanged by the walk; the other fields are non-objects. -/
def fixDatesInTask (t : Task) : Task :=
  { t with
    startDate := fixDateField t.startDate
    endDate := fixDateField t.endDate
    createdAt := fixDateField t.createdAt
    updatedAt := fixDateField t.updatedAt }

/-- The `fixDatesInObject` on a `Project`: its own date fields per
`fixDateField`, recursion into the `tasks` array. -/
def fixDatesInProject (p : Project) : Project :=
  { p with
    createdAt := fixDateField p.createdAt
    updatedAt := fixDateField p.updatedAt
    tasks := p.tasks.map fixDatesInTask }

/-- The `validateAndFixDates()` (lines 583-659): rebuilds `projects` and
`currentProject` through `fixDatesInObject` (`fixDatesInObject(null)`
returns `null`); `loading` and `error` are untouched. -/
def validateAndFixDates (st : StoreState) : StoreState :=
  { st with
    projects := st.projects.map fixDatesInProject
    currentProject := st.currentProject.map fixDatesInProject }

/-- The `initializeStore()` (lines 664-680) delegates to
`validateAndFixDates`. -/
def initStore (st : StoreState) : StoreState :=
  validateAndFixDates st

/-! ### `loadDemoProject` (lines 685-794) -/

/-- Epoch milliseconds of `new Date(2025, 5, 1)` (1 June 2025, the demo's
base date; local-time construction rendered in UTC). -/
def demoBase : Int := 1748736000000

/-- The demo project built by `loadDemoProject`, with the five generated
ids supplied as arguments and the dependency chain wired as in the source
(each task depends on the previous one, `finish-to-start`). -/
def demoProject (pid t0 t1 t2 t3 t4 : String) (now : Int) : Project :=
  { id := pid
    name := "Projet démo"
    description := "Un projet de démonstration pour tester le diagramme de Gantt"
    tasks :=
      [ { id := t0, name := "Analyse des besoins"
          description := "Définir le périmètre et les objectifs du projet"
          startDate := .date demoBase, endDate := .date (demoBase + 6 * dayMs)
          completion := .num 100, dependencies := [], projectId := pid
          createdAt := .date now, updatedAt := .date now },
        { id := t1, name := "Conception"
          description := "Concevoir l'architecture et les interfaces"
          startDate := .date (demoBase + 7 * dayMs)
          endDate := .date (demoBase + 13 * dayMs)
          completion := .num 70
          dependencies := [{ taskId := t0, type := "finish-to-start" }]
          projectId := pid, createdAt := .date now, updatedAt := .date now },
        { id := t2, name := "Développement"
          description := "Coder les fonctionnalités principales"
          startDate := .date (demoBase + 14 * dayMs)
          endDate := .date (demoBase + 29 * dayMs)
          completion := .num 30
          dependencies := [{ taskId := t1, type := "finish-to-start" }]
          projectId := pid, createdAt := .date now, updatedAt := .date now },
        { id := t3, name := "Tests"
          description := "Tester et corriger les bugs"
          startDate := .date (demoBase + 30 * dayMs)
          endDate := .date (demoBase + 36 * dayMs)
          completion := .num 0
          dependencies := [{ taskId := t2, type := "finish-to-start" }]
          projectId := pid, createdAt := .date now, updatedAt := .date now },
        { id := t4, name := "Déploiement"
          description := "Mettre en production"
          startDate := .date (demoBase + 37 * dayMs)
          endDate := .date (demoBase + 39 * dayMs)
          completion := .num 0
          dependencies := [{ taskId := t3, type := "finish-to-start" }]
          projectId := pid, createdAt := .date now, updatedAt := .date now } ]
    createdAt := .date now
    updatedAt := .date now }

/-- The `loadDemoProject()`: appends the demo project and selects it (its `set`
touches neither `loading` nor `error`). -/
def loadDemoProject (pid t0 t1 t2 t3 t4 : String) (now : Int)
    (st : StoreState) : StoreState :=
  { st with
    projects := st.projects ++ [demoProject pid t0 t1 t2 t3 t4 now]
    currentProject := some (demoProject pid t0 t1 t2 t3 t4 now) }

/-! ### Operation sequences -/

/-- One store operation together with its inputs (clock values and the ids
produced by the `uuidv4` generator are inputs of the model). -/
inductive Op where
  | createProject (name description pid : String) (now : Int)
  | updateProject (projectId : String) (upd : ProjectUpdates) (now : Int)
  | deleteProject (projectId : String)
  | selectProject (projectId : String)
  | createTask (td : TaskInput) (tid : String) (now : Int)
  | updateTask (taskId : String) (upd : TaskUpdates) (now : Int)
  | deleteTask (taskId : String) (now : Int)
  | addDependency (taskId : String) (dep : TaskDependency) (now : Int)
  | removeDependency (taskId depTaskId : String) (now : Int)
  | clearError
  | clearCache (errMsg : Option String)
  | validateAndFixDates
  | initStore
  | loadDemoProject (pid t0 t1 t2 t3 t4 : String) (now : Int)

/-- Applying one operation to a state. -/
def applyOp : Op → StoreState → StoreState
  | .createProject name description pid now => createProject name description pid now
  | .updateProject projectId upd now => updateProject projectId upd now
  | .deleteProject projectId => deleteProject projectId
  | .selectProject projectId => selectProject projectId
  | .createTask td tid now => createTask td tid now
  | .updateTask taskId upd now => updateTask taskId upd now
  | .deleteTask taskId now => deleteTask taskId now
  | .addDependency taskId dep now => addDependency taskId dep now
  | .removeDependency taskId depTaskId now => removeDependency taskId depTaskId now
  | .clearError => clearError
  | .clearCache errMsg => clearCache errMsg
  | .validateAndFixDates => validateAndFixDates
  | .initStore => initStore
  | .loadDemoProject pid t0 t1 t2 t3 t4 now => loadDemoProject pid t0 t1 t2 t3 t4 now

/-- Side condition of an operation: ids produced by `uuidv4` are globally
unique, so a freshly generated project id does not collide with an existing
one. -/
def OpWf : Op → StoreState → Prop
  | .createProject _ _ pid _, st => pid ∉ st.projects.map (·.id)
  | .loadDemoProject pid _ _ _ _ _ _, st => pid ∉ st.projects.map (·.id)
  | _, _ => True

/-- States reachable from the initial state by store operations. -/
inductive Reachable : StoreState → Prop
  | init : Reachable initialState
  | step (st : StoreState) (op : Op) (h : Reachable st) (hwf : OpWf op st) :
      Reachable (applyOp op st)

/-! ### Persistence: the object graph handed to `serialize` / `deserialize`

`serialize` receives the persisted object graph (projects, tasks, nested
plain objects/arrays, `Date`s) and `deserialize` receives the result of
`JSON.parse`.  Both walk the graph generically, so the embedding uses an
untyped tree of JavaScript values. -/

/-- A JavaScript value as seen by the persistence walkers: JSON primitives,
arrays, plain objects (association lists with unique keys), and `Date`
objects (valid `jdate` or invalid `jinvalidDate`). -/
inductive JTree where
  | jnull
  | jbool (b : Bool)
  | jnum (n : Int)
  | jstr (s : String)
  | jdate (t : Int)
  | jinvalidDate
  | jarr (xs : List JTree)
  | jobj (fs : List (String × JTree))
deriving Repr

/-- JavaScript truthiness of a `JTree` value. -/
def JTree.truthy : JTree → Bool
  | .jnull => false
  | .jbool b => b
  | .jnum n => n != 0
  | .jstr s => s != ""
  | _ => true

/-- The `typeof v === 'object'` together with truthiness (`null` has typeof
`'object'` but is falsy, so the walkers' `v && typeof v === 'object'`
guard admits exactly these). -/
def JTree.truthyObject : JTree → Bool
  | .jarr _ => true
  | .jobj _ => true
  | .jdate _ => true
  | .jinvalidDate => true
  | _ => false

/-- The `obj[field]` on a plain object: the first binding of the key. -/
def lookupField (fs : List (String × JTree)) (k : String) : Option JTree :=
  (fs.find? (fun kv => kv.1 == k)).map (·.2)

/-- The four field names the persistence walkers treat as dates
(`dateFields` in the source). -/
def isDateField (k : String) : Bool :=
  k == "createdAt" || k == "updatedAt" || k == "startDate" || k == "endDate"

/-! #### `serialize`'s `processForSerialization` (lines 807-843)

Per object it (1) replaces an invalid `Date` sitting in one of the four
date fields by a per-field default, then (2) recurses into every truthy
object-valued field.  A `Date` is `typeof 'object'`, so step (2) also
recurses into `Date` values — and `{...someDate}` copies no own properties,
so the recursive call returns an empty plain object.  Every `Date` in the
graph (valid, invalid-then-repaired at a date key, or invalid at another
key) is therefore replaced by `{}`; the step-(1) repair is never observable
and the function below folds it into the uniform recursion. -/

mutual

/-- The `processForSerialization(obj)`; a `Date` argument spreads to `{}` and
both field loops see no properties. -/
def processForSerialization : JTree → JTree
  | .jarr xs => .jarr (processForSerializationList xs)
  | .jobj fs => .jobj (processForSerializationFields fs)
  | .jdate _ => .jobj []
  | .jinvalidDate => .jobj []
  | t => t

/-- The `obj.map(processForSerialization)` on an array. -/
def processForSerializationList : List JTree → List JTree
  | [] => []
  | x :: xs => processForSerialization x :: processForSerializationList xs

/-- The field walk: recursion into every truthy object-valued field
(which destroys `Date`s, repaired or not, as derived above). -/
def processForSerializationFields :
    List (String × JTree) → List (String × JTree)
  | [] => []
  | (k, v) :: rest =>
      (k, if v.truthyObject then processForSerialization v else v)
        :: processForSerializationFields rest

end

mutual

/-- The `JSON.stringify` followed by `JSON.parse`, as a value transformation:
a valid `Date` serializes via `toJSON` to its ISO string, an invalid `Date`
to `null`; everything else survives structurally. -/
def jsonCycle : JTree → JTree
  | .jdate t => .jstr (isoString t)
  | .jinvalidDate => .jnull
  | .jarr xs => .jarr (jsonCycleList xs)
  | .jobj fs => .jobj (jsonCycleFields fs)
  | t => t

/-- The `jsonCycle` on an array. -/
def jsonCycleList : List JTree → List JTree
  | [] => []
  | x :: xs => jsonCycle x :: jsonCycleList xs

/-- The `jsonCycle` on an object's fields. -/
def jsonCycleFields : List (String × JTree) → List (String × JTree)
  | [] => []
  | (k, v) :: rest => (k, jsonCycle v) :: jsonCycleFields rest

end

/-! #### `deserialize`'s `convertDates` (lines 861-926)

Per object it (1) converts each truthy string in one of the four date
fields into a `Date` (an unparsable string gets a per-field default), then
(2) if both `startDate` and `endDate` are truthy, coerces them to `Date`s
and, when `endDate <= startDate` (false if either is invalid), overwrites
`endDate` with `startDate + 1 day`, and (3) recurses into every truthy
object-valued field.  As in `processForSerialization`, step (3) also hits
the `Date`s produced by steps (1)-(2) and spreads each of them to `{}`. -/

/-- The per-field default of the deserializer (`createdAt`/`updatedAt`/
`startDate` → now, `endDate` → now + 7 days). -/
def convDefault (now : Int) (k : String) : Int :=
  if k == "endDate" then now + weekMs else now

/-- Step (1) on one field: a truthy string in a date field becomes a
`Date` — the parsed instant, or the per-field default when unparsable. -/
def convStep1Val (now : Int) (k : String) (v : JTree) : JTree :=
  match v with
  | .jstr s =>
      if isDateField k && s != "" then
        match parseDate s with
        | some t => .jdate t
        | none => .jdate (convDefault now k)
      else .jstr s
  | v => v

/-- The `converted.startDate instanceof Date ? converted.startDate
: new Date(converted.startDate)`, as a time value: `some` is a valid date.
(Arrays coerce through their string form; modelled as invalid.) -/
def newDateNum : JTree → Option Int
  | .jdate t => some t
  | .jinvalidDate => none
  | .jstr s => parseDate s
  | .jnum n => some n
  | .jbool b => some (if b then 1 else 0)
  | .jnull => some 0
  | .jobj _ => none
  | .jarr _ => none

/-- Step (2)'s test on the post-step-(1) `startDate`/`endDate` values:
both truthy, both coerce to valid dates, and `endDate <= startDate`. -/
def endFixCond (s1 e1 : JTree) : Bool :=
  s1.truthy && e1.truthy &&
    match newDateNum s1, newDateNum e1 with
    | some a, some b => b ≤ a
    | _, _ => false

mutual

/-- The `convertDates(obj)`; a `Date` argument spreads to `{}`. -/
def convertDates (now : Int) : JTree → JTree
  | .jarr xs => .jarr (convertDatesList now xs)
  | .jobj fs =>
      .jobj (convertDatesFields now
        ((lookupField fs "startDate").map (convStep1Val now "startDate")) fs)
  | .jdate _ => .jobj []
  | .jinvalidDate => .jobj []
  | t => t

/-- The `obj.map(convertDates)` on an array. -/
def convertDatesList (now : Int) : List JTree → List JTree
  | [] => []
  | x :: xs => convertDates now x :: convertDatesList now xs

/-- The field walk of `convertDates`; `s1` is the object's `startDate`
after step (1), needed by step (2)'s cross-field test.  Steps (1)-(2) only
ever replace a field's value by a `Date`, so in the recursion step an
object- or array-valued field still holds the original value `v`. -/
def convertDatesFields (now : Int) (s1 : Option JTree) :
    List (String × JTree) → List (String × JTree)
  | [] => []
  | (k, v) :: rest =>
      let v1 := convStep1Val now k v
      let v2 :=
        if k == "endDate" then
          match s1 with
          | some sv => if endFixCond sv v1 then
                .jdate ((newDateNum sv).getD 0 + dayMs)
              else v1
          | none => v1
        else v1
      let v3 :=
        match v2 with
        | .jdate _ => .jobj []
        | .jinvalidDate => .jobj []
        | .jobj _ => convertDates now v
        | .jarr _ => convertDates now v
        | other => other
      (k, v3) :: convertDatesFields now s1 rest

end

/-- The empty persisted state `{ projects: [], currentProject: null }`
used by both fallback paths. -/
def emptyStateJson : JTree :=
  .jobj [("projects", .jarr []), ("currentProject", .jnull)]

/-- The `serialize(state)` (lines 804-855): pre-processes the graph, then
`JSON.stringify`.  The host encoder is a parameter (`stringify`, `none`
modelling a throw); if encoding throws, the catch encodes the empty state
instead (with the same host encoder, whose own failure would escape —
hence the `Option` result). -/
def serialize (stringify : JTree → Option String) (state : JTree) :
    Option String :=
  match stringify (processForSerialization state) with
  | some s => some s
  | none => stringify emptyStateJson

/-- The `deserialize(str)` (lines 856-939): `JSON.parse` (the host parser is a
parameter, `none` modelling a throw on a malformed payload), then
`convertDates`; if parsing throws, the catch returns the empty state. -/
def deserialize (parse : String → Option JTree) (now : Int) (str : String) :
    JTree :=
  match parse str with
  | some parsed => convertDates now parsed
  | none => emptyStateJson

/-- The `deserialize(serialize(state))` when the host JSON encode/decode
succeed: `JSON.parse (JSON.stringify x)` is `jsonCycle x`. -/
def storeRoundTrip (now : Int) (state : JTree) : JTree :=
  convertDates now (jsonCycle (processForSerialization state))

/-! ### Startup migration guard — `migrateLegacyStorage`
(application entry component, `src/unnamed/part_002` lines 158-239)

Reads the `'project-storage'` slot, parses it, and inspects
`parsed.state.projects`: if any project's `createdAt`/`updatedAt`, or any
of its tasks' `startDate`/`endDate`/`createdAt`/`updatedAt`, is a string
that fails to parse into a valid date, the whole slot is removed.  Any
exception during the walk (inner `try`) also flags the slot; a JSON parse
error or an exception outside the walk (outer `try`) removes the slot
directly. -/

/-- The persisted slot: absent, a string `JSON.parse` rejects, or a string
parsing to the given value. -/
inductive Slot where
  | empty
  | malformed (s : String)
  | stored (v : JTree)
deriving Repr

/-- The `obj[field]` as evaluated by the guard: property access on `null`
throws (`Except.error`); on non-objects other than `null` it yields
`undefined` (`Option.none`). -/
def getFieldE (v : JTree) (k : String) : Except Unit (Option JTree) :=
  match v with
  | .jobj fs => .ok (lookupField fs k)
  | .jnull => .error ()
  | _ => .ok none

/-- One field check of the guard: present, truthy, a string, and
unparsable as a date. -/
def badDateString (v : Option JTree) : Bool :=
  match v with
  | some (.jstr s) => s != "" && (parseDate s).isNone
  | _ => false

/-- The guard's field loop over a project or task value. -/
def anyBadDateField (v : JTree) (fields : List String) :
    Except Unit Bool := do
  match fields with
  | [] => return false
  | k :: rest =>
      let fv ← getFieldE v k
      if badDateString fv then return true
      else anyBadDateField v rest

/-- The guard's walk over one `task` value. -/
def checkGuardTask (task : JTree) : Except Unit Bool :=
  anyBadDateField task ["startDate", "endDate", "createdAt", "updatedAt"]

/-- The guard's inner task loop (`for (const task of project.tasks)`,
breaking once flagged). -/
def checkGuardTaskList : List JTree → Except Unit Bool
  | [] => .ok false
  | t :: ts => do
      let b ← checkGuardTask t
      if b then return true else checkGuardTaskList ts

/-- The guard's walk over one `project` value: its `createdAt`/`updatedAt`,
then, when `project.tasks` is truthy, its tasks.  Iterating a truthy
non-iterable throws; iterating a string visits its characters, on which
every property access yields `undefined`, so nothing is flagged. -/
def checkGuardProject (project : JTree) : Except Unit Bool := do
  let b ← anyBadDateField project ["createdAt", "updatedAt"]
  if b then return true
  else
    let tasksF ← getFieldE project "tasks"
    match tasksF with
    | some tv =>
        if tv.truthy then
          match tv with
          | .jarr ts => checkGuardTaskList ts
          | .jstr _ => .ok false
          | _ => .error ()
        else return false
    | none => return false

/-- The guard's outer project loop. -/
def checkGuardProjectList : List JTree → Except Unit Bool
  | [] => .ok false
  | p :: ps => do
      let b ← checkGuardProject p
      if b then return true else checkGuardProjectList ps

/-- The `needsMigration` computation (its own `try/catch`: an exception
while walking the projects flags the slot).  A truthy non-array
`projects` value is not iterable and throws inside that `try`, except for
a string, whose character walk flags nothing. -/
def needsMigrationOf (projectsVal : JTree) : Bool :=
  match projectsVal with
  | .jarr ps =>
      match checkGuardProjectList ps with
      | .ok b => b
      | .error _ => true
  | .jstr _ => false
  | _ => true

/-- The body after a successful parse: the check only runs when
`parsed.state && parsed.state.projects` is truthy; the result says whether
the slot must be discarded.  An `Except.error` models an exception
reaching the guard's outer `catch`. -/
def checkParsedPayload (parsed : JTree) : Except Unit Bool := do
  let stateF ← getFieldE parsed "state"
  match stateF with
  | some sv =>
      if sv.truthy then
        let projF ← getFieldE sv "projects"
        match projF with
        | some pv =>
            if pv.truthy then return needsMigrationOf pv
            else return false
        | none => return false
      else return false
  | none => return false

/-- The `migrateLegacyStorage()` as a transformation of the slot: a malformed
payload, a flagged payload, or an exception anywhere empties the slot;
otherwise the slot is kept. -/
def migrateLegacyStorage : Slot → Slot
  | .empty => .empty
  | .malformed _ => .empty
  | .stored v =>
      match checkParsedPayload v with
      | .ok true => .empty
      | .ok false => .stored v
      | .error _ => .empty

/-! ### State checkers used by the testable properties -/

/-- Both dates of a task are valid and `endDate > startDate` strictly. -/
def taskDatesOrdered (t : Task) : Bool :=
  match t.startDate, t.endDate with
  | .date a, .date b => a < b
  | _, _ => false

/-- Every task of every project (and of the current project) has ordered
dates. -/
def allTasksOrdered (st : StoreState) : Bool :=
  st.projects.all (fun p => p.tasks.all taskDatesOrdered) &&
    match st.currentProject with
    | some c => c.tasks.all taskDatesOrdered
    | none => true

/-- The completion value is a number in `[0, 100]`. -/
def completionOk : JNum → Bool
  | .num n => 0 ≤ n && n ≤ 100
  | .nan => false

/-- Every task of every project has an in-range completion. -/
def allCompletionsOk (st : StoreState) : Bool :=
  st.projects.all (fun p => p.tasks.all (fun t => completionOk t.completion))

/-- No task of any project carries a dependency on `tid`. -/
def noDepsOn (st : StoreState) (tid : String) : Bool :=
  st.projects.all fun p =>
    p.tasks.all fun t => t.dependencies.all fun d => !(d.taskId == tid)

/-! ### Claim C1 -/

/-- A well-formed one-task project state used to exercise `updateTask`. -/
def c1Task : Task :=
  ⟨"t1", "T", "", .date 0, .date 86400000, .num 10, [], "p1", .date 0, .date 0⟩

/-- The project holding `c1Task`. -/
def c1Project : Project := ⟨"p1", "P", "", [c1Task], .date 0, .date 0⟩

/-- The store state holding `c1Project` as current project. -/
def c1State : StoreState := ⟨[c1Project], some c1Project, false, none⟩

/-- C1, counterexample: the claim extends the `endDate > startDate`
invariant to `updateTask`, but `updateTask` performs no ordering check:
updating `t1` (which starts at instant 0) with the parseable end date 0
stores `endDate = startDate`, so a task produced by `updateTask` violates
the strict ordering. -/
theorem c1_counterexample :
    allTasksOrdered c1State = true ∧
    allTasksOrdered
      (updateTask "t1" { endDate := some (UDateInput.uDate 0) } 99 c1State)
      = false :=
  ⟨rfl, rfl⟩

/-- C1, amended: every task produced by `createTask` has
`endDate > startDate` (with both dates valid), whatever the raw inputs;
`updateTask` drops unparsable date inputs but does not re-check ordering
(see `c1_counterexample`). -/
theorem c1_createTask_dates_ordered (st : StoreState) (c : Project)
    (td : TaskInput) (tid : String) (now : Int)
    (h : st.currentProject = some c) :
    (createTask td tid now st).currentProject
      = some { c with tasks := c.tasks ++ [buildNewTask td tid c.id now]
                      updatedAt := .date now } ∧
    ∃ a b, (buildNewTask td tid c.id now).startDate = .date a ∧
      (buildNewTask td tid c.id now).endDate = .date b ∧ a < b := by
  constructor
  · simp [createTask, h, installCurrent]
  · refine ⟨fixedStartDate now td.startDate,
      resolvedEndDate now td.startDate td.endDate, rfl, rfl, ?_⟩
    have hday : (0:Int) < dayMs := by decide
    simp only [resolvedEndDate]
    split <;> omega

/-- C1, witness: the amended theorem applied to the concrete state
`c1State` with every default input. -/
theorem c1_witness :
    (createTask {} "t2" 5 c1State).currentProject
      = some { c1Project with
                tasks := c1Project.tasks ++ [buildNewTask {} "t2" c1Project.id 5]
                updatedAt := .date 5 } ∧
    ∃ a b, (buildNewTask {} "t2" c1Project.id 5).startDate = .date a ∧
      (buildNewTask {} "t2" c1Project.id 5).endDate = .date b ∧ a < b :=
  c1_createTask_dates_ordered c1State c1Project {} "t2" 5 rfl

/-! ### Claim C2 -/

/-- C2: `createTask`'s date policy — (i) a missing or invalid raw start
date resolves to the current time; (ii) a missing end date starts from
`now + 7 days`; (iii) an invalid end date resolves to the (resolved)
start date plus 7 days; (iv) whenever the resolved end does not exceed the
resolved start, the stored end date is forced to start + 1 day; (v) equal
input dates `D` yield exactly `(D, D + 1 day)`.  The embedding is a total
function, matching the "never throws" clause. -/
theorem c2_createTask_date_policy (now : Int) (sd ed : CDateInput) :
    ((sd = .cOther ∨ rawStartDate now sd = none) →
        fixedStartDate now sd = now) ∧
    (ed = .cOther → rawEndDate now ed = some (now + weekMs)) ∧
    (rawEndDate now ed = none →
        fixedEndDate now sd ed = fixedStartDate now sd + weekMs) ∧
    (fixedEndDate now sd ed ≤ fixedStartDate now sd →
        resolvedEndDate now sd ed = fixedStartDate now sd + dayMs) ∧
    (∀ D : Int, fixedStartDate now (.cDate D) = D ∧
        resolvedEndDate now (.cDate D) (.cDate D) = D + dayMs) := by
  refine ⟨?_, ?_, ?_, ?_, ?_⟩
  · rintro (rfl | h)
    · rfl
    · simp [fixedStartDate, h]
  · rintro rfl; rfl
  · intro h; simp [fixedEndDate, h]
  · intro h; simp only [resolvedEndDate]; rw [if_pos h]
  · intro D
    refine ⟨rfl, ?_⟩
    simp [resolvedEndDate, fixedStartDate, fixedEndDate, rawStartDate,
      rawEndDate, parseDate]

/-- C2, witness: the policy at concrete inputs — an unparsable start
string at clock 0 resolves to 0, a missing end date to `weekMs`, and equal
dates 5 to `(5, 5 + dayMs)`. -/
theorem c2_witness :
    fixedStartDate 0 (CDateInput.cStr "bad") = 0 ∧
    rawEndDate 0 CDateInput.cOther = some (0 + weekMs) ∧
    fixedStartDate 0 (CDateInput.cDate 5) = 5 ∧
    resolvedEndDate 0 (CDateInput.cDate 5) (CDateInput.cDate 5) = 5 + dayMs := by
  refine ⟨?_, ?_, ?_, ?_⟩
  · exact (c2_createTask_date_policy 0 (.cStr "bad") .cOther).1
      (Or.inr rfl)
  · exact (c2_createTask_date_policy 0 .cOther .cOther).2.1 rfl
  · exact ((c2_createTask_date_policy 0 (.cDate 5) (.cDate 5)).2.2.2.2 5).1
  · exact ((c2_createTask_date_policy 0 (.cDate 5) (.cDate 5)).2.2.2.2 5).2

/-! ### Claim C5 -/

/-- A state with an in-range completion used to exercise `updateTask`. -/
def c5Task : Task :=
  ⟨"t1", "T", "", .date 0, .date 86400000, .num 10, [], "p1", .date 0, .date 0⟩

/-- The project holding `c5Task`. -/
def c5Project : Project := ⟨"p1", "P", "", [c5Task], .date 0, .date 0⟩

/-- The store state holding `c5Project` as current project. -/
def c5State : StoreState := ⟨[c5Project], some c5Project, false, none⟩

/-- C5: `updateTask` merges `updates.completion` without any clamping
(its `processedUpdates` only touches the date fields), so
`updateTask('t1', {completion: 150})` stores completion 150 and the
`0 <= completion <= 100` invariant fails on the resulting store —
contradicting the store's own data-model documentation
(`completion - Pourcentage d'avancement (0-100)`) and the clamping that
`createTask` performs. -/
theorem c5_updateTask_skips_clamp :
    allCompletionsOk c5State = true ∧
    allCompletionsOk
      (updateTask "t1" { completion := some (JNum.num 150) } 7 c5State)
      = false :=
  ⟨rfl, rfl⟩

/-! ### Claim C8 -/

/-- C8: calling `createTask` with no current project records the
"no project selected" failure message, resets `loading`, and leaves
everything else — `projects`, `currentProject`, hence every task —
unchanged. -/
theorem c8_createTask_no_project (st : StoreState) (td : TaskInput)
    (tid : String) (now : Int) (h : st.currentProject = none) :
    createTask td tid now st
      = { st with
          loading := false
          error := some "Échec de création de la tâche: Aucun projet sélectionné" } := by
  simp only [createTask, h, noProjectFailure]
  congr 1

/-- C8, witness: the theorem at the initial state. -/
theorem c8_witness :
    createTask {} "t1" 0 initialState
      = { initialState with
          loading := false
          error := some "Échec de création de la tâche: Aucun projet sélectionné" } :=
  c8_createTask_no_project initialState {} "t1" 0 rfl

/-! ### Claim C10 -/

/-- A dependency matches itself under `addDependency`'s duplicate check. -/
theorem depMatches_self (d : TaskDependency) : depMatches d d = true := by
  simp [depMatches]

/-- Applying `addDependency`'s per-task body twice with the same dependency
equals applying it once: after the first application every task with the
target id carries an equal `(taskId, type)` pair, so the second
application's duplicate check fires. -/
theorem addDependencyToTask_idem (taskId : String) (d : TaskDependency)
    (n1 n2 : Int) (t : Task) :
    addDependencyToTask taskId d n2 (addDependencyToTask taskId d n1 t)
      = addDependencyToTask taskId d n1 t := by
  unfold addDependencyToTask
  cases hid : t.id == taskId with
  | false => simp [hid]
  | true =>
    simp only [hid, if_true]
    cases hfind : t.dependencies.find? (depMatches d) with
    | some dep => simp [hid, hfind]
    | none =>
      simp only [hfind]
      have hfind' :
          (t.dependencies ++ [d]).find? (depMatches d) = some d := by
        rw [List.find?_append, hfind]
        simp [depMatches_self]
      simp [hid, hfind']

/-- The task-list map of `addDependency` is idempotent. -/
theorem addDependency_map_idem (taskId : String) (d : TaskDependency)
    (n1 n2 : Int) (ts : List Task) :
    (ts.map (addDependencyToTask taskId d n1)).map
        (addDependencyToTask taskId d n2)
      = ts.map (addDependencyToTask taskId d n1) := by
  induction ts with
  | nil => rfl
  | cons t ts ih => simp [ih, addDependencyToTask_idem]

/-- C10: calling `addDependency(taskId, d)` a second time with the same
dependency leaves every task list of the current project unchanged — in
particular the target task's dependency list — because the duplicate
`(taskId, type)` check makes the second add a no-op on the tasks (only the
project's `updatedAt` is refreshed, and no error is recorded). -/
theorem c10_addDependency_duplicate_noop (st : StoreState) (taskId : String)
    (d : TaskDependency) (n1 n2 : Int) :
    ((addDependency taskId d n2 (addDependency taskId d n1 st)).currentProject).map
        (fun c => c.tasks)
      = ((addDependency taskId d n1 st).currentProject).map (fun c => c.tasks) := by
  cases hcp : st.currentProject with
  | none => simp [addDependency, hcp, noProjectFailure]
  | some c =>
    simp [addDependency, hcp, installCurrent, addDependency_map_idem]
    intro t _
    exact addDependencyToTask_idem taskId d n1 n2 t

/-! ### Claim C7 -/

/-- C7: persistence failures degrade without escaping — if the host
encoder throws on the processed state, `serialize` persists the encoding
of the empty `{projects: [], currentProject: null}` state instead; if the
host parser throws on the stored string, `deserialize` returns the empty
state instead of propagating. -/
theorem c7_persistence_fallbacks :
    (∀ (stringify : JTree → Option String) (state : JTree),
        stringify (processForSerialization state) = none →
        serialize stringify state = stringify emptyStateJson) ∧
    (∀ (parse : String → Option JTree) (now : Int) (str : String),
        parse str = none → deserialize parse now str = emptyStateJson) := by
  constructor
  · intro stringify state h
    simp [serialize, h]
  · intro parse now str h
    simp [deserialize, h]

/-- C7, witness: both fallbacks at a concrete always-throwing host
function. -/
theorem c7_witness :
    serialize (fun _ => none) JTree.jnull = none ∧
    deserialize (fun _ => none) 0 "x" = emptyStateJson :=
  ⟨c7_persistence_fallbacks.1 (fun _ => none) JTree.jnull rfl,
   c7_persistence_fallbacks.2 (fun _ => none) 0 "x" rfl⟩

/-! ### Claim C3 -/

/-- Whether a value is a (valid) `Date` object. -/
def JTree.isDateVal : JTree → Bool
  | .jdate _ => true
  | _ => false

/-- The `startDate` of the first task of the first project of a persisted
state value. -/
def firstTaskStartDate (v : JTree) : Option JTree :=
  match v with
  | .jobj fs =>
      match lookupField fs "projects" with
      | some (.jarr (p :: _)) =>
          match p with
          | .jobj pfs =>
              match lookupField pfs "tasks" with
              | some (.jarr (t :: _)) =>
                  match t with
                  | .jobj tfs => lookupField tfs "startDate"
                  | _ => none
              | _ => none
          | _ => none
      | _ => none
  | _ => none

/-- A persisted state satisfying the stated invariants: one project, one
task, valid `Date`s with `endDate > startDate`, completion 50. -/
def c3State : JTree :=
  .jobj
    [("projects", .jarr
      [.jobj
        [("id", .jstr "p1"), ("name", .jstr "P"), ("description", .jstr "d"),
         ("tasks", .jarr
           [.jobj
             [("id", .jstr "t1"), ("name", .jstr "T"),
              ("description", .jstr "d"),
              ("startDate", .jdate 1000), ("endDate", .jdate 90000000),
              ("completion", .jnum 50), ("dependencies", .jarr []),
              ("projectId", .jstr "p1"),
              ("createdAt", .jdate 500), ("updatedAt", .jdate 500)]]),
         ("createdAt", .jdate 500), ("updatedAt", .jdate 500)]]),
     ("currentProject", .jnull)]

/-- C3: the round-trip law fails — `serialize` spreads every `Date` into
an empty plain object before stringification (`{...someDate}` has no own
properties), so `deserialize(serialize(state))` returns `{}` where the
original held the instant 1000: the round-tripped state does not reproduce
the original's date fields as equal instants.  This contradicts the code's
own decoder, whose `convertDates` expects ISO date strings in those
fields — evidence that the encoder was meant to emit them. -/
theorem c3_roundtrip_destroys_dates :
    firstTaskStartDate c3State = some (.jdate 1000) ∧
    firstTaskStartDate (storeRoundTrip 0 c3State) = some (.jobj []) ∧
    (firstTaskStartDate c3State).map JTree.isDateVal = some true ∧
    (firstTaskStartDate (storeRoundTrip 0 c3State)).map JTree.isDateVal
      = some false :=
  ⟨rfl, rfl, rfl, rfl⟩

/-! ### Claim C4 -/

/-- A task in a *non-current* project that depends on task `x` of the
current project. -/
def c4OtherTask : Task :=
  ⟨"a1", "A1", "", .date 0, .date 86400000, .num 0,
    [⟨"x", "finish-to-start"⟩], "pa", .date 0, .date 0⟩

/-- The non-current project holding `c4OtherTask`. -/
def c4ProjectA : Project := ⟨"pa", "A", "", [c4OtherTask], .date 0, .date 0⟩

/-- The task `x` that will be deleted. -/
def c4VictimTask : Task :=
  ⟨"x", "X", "", .date 0, .date 86400000, .num 0, [], "pb", .date 0, .date 0⟩

/-- The current project holding `c4VictimTask`. -/
def c4ProjectB : Project := ⟨"pb", "B", "", [c4VictimTask], .date 0, .date 0⟩

/-- The two-project state: project B is current. -/
def c4State : StoreState :=
  ⟨[c4ProjectA, c4ProjectB], some c4ProjectB, false, none⟩

/-- C4, counterexample: `deleteTask('x')` removes `x` from the current
project and cleans only the current project's tasks, so the task `a1` of
the other project A still carries a dependency whose `taskId` is `x` —
the claim's "in any project, not only the current one" fails. -/
theorem c4_counterexample :
    noDepsOn (deleteTask "x" 0 c4State) "x" = false ∧
    ((deleteTask "x" 0 c4State).currentProject).map (fun c => c.tasks)
      = some [] :=
  ⟨rfl, rfl⟩

/-- C4, amended: after `deleteTask(t)` the rebuilt current project
contains neither the deleted task nor any dependency entry referencing it;
tasks of other projects are not cleaned (see `c4_counterexample`). -/
theorem c4_deleteTask_cleans_current (st : StoreState) (taskId : String)
    (now : Int) (c' : Project)
    (h : (deleteTask taskId now st).currentProject = some c') :
    c'.tasks.all
        (fun t => !(t.id == taskId) &&
          t.dependencies.all (fun d => !(d.taskId == taskId))) = true := by
  cases hcp : st.currentProject with
  | none =>
    rw [deleteTask, hcp] at h
    simp [noProjectFailure, hcp] at h
  | some c =>
    rw [deleteTask, hcp] at h
    simp only [installCurrent, Option.some.injEq] at h
    subst h
    simp only [List.all_eq_true, List.mem_map, List.mem_filter]
    rintro t ⟨t0, ⟨_, hid⟩, rfl⟩
    simp only [Bool.and_eq_true, List.all_eq_true, List.mem_filter]
    exact ⟨hid, fun d hd => hd.2⟩

/-- C4, witness: the amended theorem at a concrete deletion; the rebuilt
current project is `c4ProjectB` with its only task removed. -/
theorem c4_witness :
    (Project.mk "pb" "B" "" [] (.date 0) (.date 0)).tasks.all
        (fun t => !(t.id == "x") &&
          t.dependencies.all (fun d => !(d.taskId == "x"))) = true :=
  c4_deleteTask_cleans_current c4State "x" 0
    (Project.mk "pb" "B" "" [] (.date 0) (.date 0)) rfl

/-! ### Claim C6 -/

/-- A persisted payload whose only bad date string sits in
`state.currentProject` (its `createdAt`); `state.projects` is empty. -/
def c6BadCurrentPayload (s : String) : JTree :=
  .jobj
    [("state", .jobj
      [("projects", .jarr []),
       ("currentProject", .jobj [("createdAt", .jstr s)])])]

/-- A persisted payload with a bad date string in a project's
`createdAt` inside `state.projects`. -/
def c6BadProjectPayload (s : String) : JTree :=
  .jobj
    [("state", .jobj
      [("projects", .jarr [.jobj [("createdAt", .jstr s)]]),
       ("currentProject", .jnull)])]

/-- C6, counterexample: the guard walks only `state.projects`, so a
payload whose only unparsable date string lives in `state.currentProject`
is kept ("not-a-date" being indeed an unparsable truthy date string per
`badDateString`) — the claim's "anywhere in the persisted state, including
currentProject" fails. -/
theorem c6_counterexample :
    migrateLegacyStorage (.stored (c6BadCurrentPayload "not-a-date"))
      = .stored (c6BadCurrentPayload "not-a-date") ∧
    badDateString (some (.jstr "not-a-date")) = true :=
  ⟨rfl, rfl⟩

/-- C6, amended: the guard inspects only the `state.projects` array — a
project whose `createdAt` is a truthy unparsable string causes the whole
slot to be discarded, while the same bad string appearing only in
`state.currentProject` leaves the slot untouched. -/
theorem c6_guard_checks_projects_only (s : String) (hne : s ≠ "")
    (hbad : parseDate s = none) :
    migrateLegacyStorage (.stored (c6BadProjectPayload s)) = .empty ∧
    migrateLegacyStorage (.stored (c6BadCurrentPayload s))
      = .stored (c6BadCurrentPayload s) := by
  have hb : badDateString (some (.jstr s)) = true := by
    simp [badDateString, hbad, hne]
  constructor
  · simp [migrateLegacyStorage, checkParsedPayload, c6BadProjectPayload,
      getFieldE, lookupField, JTree.truthy, needsMigrationOf,
      checkGuardProjectList, checkGuardProject, anyBadDateField, hb,
      Bind.bind, Except.bind, Pure.pure, Except.pure]
  · simp [migrateLegacyStorage, checkParsedPayload, c6BadCurrentPayload,
      getFieldE, lookupField, JTree.truthy, needsMigrationOf,
      checkGuardProjectList, Bind.bind, Except.bind, Pure.pure, Except.pure]

/-- C6, witness: the amended theorem at the unparsable string
`"garbage"`. -/
theorem c6_witness :
    migrateLegacyStorage (.stored (c6BadProjectPayload "garbage")) = .empty ∧
    migrateLegacyStorage (.stored (c6BadCurrentPayload "garbage"))
      = .stored (c6BadCurrentPayload "garbage") :=
  c6_guard_checks_projects_only "garbage" (by decide) rfl

/-! ### Claim C9 -/

/-- Auxiliary invariant: project ids are pairwise distinct, and the
current project, when set, is (field for field) an element of
`projects`. -/
def StoreInvAux (st : StoreState) : Prop :=
  (st.projects.map (fun p => p.id)).Nodup ∧
  ∀ c, st.currentProject = some c → c ∈ st.projects

/-- Mapping an id-preserving function over the project list preserves the
id list. -/
theorem map_map_id (f : Project → Project)
    (hf : ∀ p, (f p).id = p.id) (ps : List Project) :
    (ps.map f).map (fun p => p.id) = ps.map (fun p => p.id) := by
  induction ps with
  | nil => rfl
  | cons a ps ih => simp [ih, hf]

/-- The replace-by-id function of `installCurrent` preserves each
project's id. -/
theorem replace_id_preserved (c' p : Project) :
    (if p.id == c'.id then c' else p).id = p.id := by
  by_cases h : (p.id == c'.id) = true
  · simp only [h, if_true]
    exact (eq_of_beq h).symm
  · simp only [h]
    simp

/-- The `installCurrent` preserves the auxiliary invariant whenever the
rebuilt project keeps the current project's id. -/
theorem installCurrent_inv (st : StoreState) (c c' : Project)
    (hnd : (st.projects.map (fun p => p.id)).Nodup)
    (hmem : ∀ x, st.currentProject = some x → x ∈ st.projects)
    (hcp : st.currentProject = some c) (hid : c'.id = c.id) :
    StoreInvAux (installCurrent c' st) := by
  constructor
  · have h1 : (installCurrent c' st).projects
        = st.projects.map (fun p => if p.id == c'.id then c' else p) := rfl
    rw [h1, map_map_id _ (replace_id_preserved c')]
    exact hnd
  · intro x hx
    simp only [installCurrent, Option.some.injEq] at hx
    subst hx
    have hc : c ∈ st.projects := hmem c hcp
    have hbeq : (c.id == c'.id) = true := by
      rw [hid]
      simp
    simp only [installCurrent]
    exact List.mem_map.mpr ⟨c, hc, by simp [hbeq]⟩

/-- The `validateAndFixDates` preserves the auxiliary invariant. -/
theorem validateAndFixDates_inv (st : StoreState)
    (hnd : (st.projects.map (fun p => p.id)).Nodup)
    (hmem : ∀ x, st.currentProject = some x → x ∈ st.projects) :
    StoreInvAux (validateAndFixDates st) := by
  constructor
  · have h1 : (validateAndFixDates st).projects
        = st.projects.map fixDatesInProject := rfl
    rw [h1, map_map_id fixDatesInProject (fun _ => rfl)]
    exact hnd
  · intro x hx
    simp only [validateAndFixDates, Option.map_eq_some'] at hx
    obtain ⟨c, hc, rfl⟩ := hx
    exact List.mem_map.mpr ⟨c, hmem c hc, rfl⟩

/-- Every reachable state satisfies the auxiliary invariant. -/
theorem reachable_inv (st : StoreState) (h : Reachable st) :
    StoreInvAux st := by
  induction h with
  | init =>
    constructor
    · simp [initialState]
    · intro c hc
      simp [initialState] at hc
  | step st op hr hwf ih =>
    obtain ⟨hnd, hmem⟩ := ih
    cases op with
    | createProject name desc pid now =>
      have hfresh : pid ∉ st.projects.map (fun p => p.id) := hwf
      constructor
      · simp only [applyOp, createProject, List.map_append, List.map_cons,
          List.map_nil]
        exact List.Nodup.append hnd (List.nodup_singleton _)
          (fun x hx hx' => by
            simp only [List.mem_singleton] at hx'
            exact hfresh (hx' ▸ hx))
      · intro x hx
        simp only [applyOp, createProject, Option.some.injEq] at hx
        subst hx
        simp [applyOp, createProject]
    | updateProject pid upd now =>
      constructor
      · have h1 : (applyOp (Op.updateProject pid upd now) st).projects
            = st.projects.map (fun p =>
              if p.id == pid then
                { p with
                  name := upd.name.getD p.name
                  description := upd.description.getD p.description
                  updatedAt := .date now }
              else p) := rfl
        rw [h1, map_map_id _ (fun p => by
          by_cases h : (p.id == pid) = true <;> simp [h])]
        exact hnd
      · intro x hx
        cases hc : st.currentProject with
        | none => simp [applyOp, updateProject, hc] at hx
        | some c =>
          by_cases hcc : (c.id == pid) = true
          · simp only [applyOp, updateProject, hc, hcc, if_true] at hx
            exact List.mem_of_find?_eq_some hx
          · have hcc' : (c.id == pid) = false := by
              simpa using hcc
            simp only [applyOp, updateProject, hc, hcc', Bool.false_eq_true,
              if_false, Option.some.injEq] at hx
            obtain rfl := hx
            simp only [applyOp, updateProject]
            refine List.mem_map.mpr ⟨c, hmem c hc, ?_⟩
            simp [hcc']
    | deleteProject pid =>
      constructor
      · simp only [applyOp, deleteProject]
        exact ((hnd.sublist (List.Sublist.map _ (List.filter_sublist _))))
      · intro x hx
        cases hc : st.currentProject with
        | none => simp [applyOp, deleteProject, hc] at hx
        | some c =>
          by_cases hcc : (c.id == pid) = true
          · simp [applyOp, deleteProject, hc, hcc] at hx
          · have hcc' : (c.id == pid) = false := by
              simpa using hcc
            simp only [applyOp, deleteProject, hc, hcc', Bool.false_eq_true,
              if_false, Option.some.injEq] at hx
            obtain rfl := hx
            simp only [applyOp, deleteProject]
            exact List.mem_filter.mpr ⟨hmem c hc, by simp [hcc']⟩
    | selectProject pid =>
      cases hf : st.projects.find? (fun p => p.id == pid) with
      | some p =>
        constructor
        · simpa [applyOp, selectProject, hf] using hnd
        · intro x hx
          simp only [applyOp, selectProject, hf, Option.some.injEq] at hx
          subst hx
          simpa [applyOp, selectProject, hf] using
            List.mem_of_find?_eq_some hf
      | none =>
        constructor
        · simpa [applyOp, selectProject, hf] using hnd
        · intro x hx
          simp only [applyOp, selectProject, hf] at hx
          simpa [applyOp, selectProject, hf] using hmem x hx
    | createTask td tid now =>
      cases hc : st.currentProject with
      | none =>
        constructor
        · simpa [applyOp, createTask, hc, noProjectFailure] using hnd
        · intro x hx
          simp [applyOp, createTask, hc, noProjectFailure] at hx
      | some c =>
        simp only [applyOp, createTask, hc]
        exact installCurrent_inv st c _ hnd hmem hc rfl
    | updateTask taskId upd now =>
      cases hc : st.currentProject with
      | none =>
        constructor
        · simpa [applyOp, updateTask, hc, noProjectFailure] using hnd
        · intro x hx
          simp [applyOp, updateTask, hc, noProjectFailure] at hx
      | some c =>
        simp only [applyOp, updateTask, hc]
        exact installCurrent_inv st c _ hnd hmem hc rfl
    | deleteTask taskId now =>
      cases hc : st.currentProject with
      | none =>
        constructor
        · simpa [applyOp, deleteTask, hc, noProjectFailure] using hnd
        · intro x hx
          simp [applyOp, deleteTask, hc, noProjectFailure] at hx
      | some c =>
        simp only [applyOp, deleteTask, hc]
        exact installCurrent_inv st c _ hnd hmem hc rfl
    | addDependency taskId dep now =>
      cases hc : st.currentProject with
      | none =>
        constructor
        · simpa [applyOp, addDependency, hc, noProjectFailure] using hnd
        · intro x hx
          simp [applyOp, addDependency, hc, noProjectFailure] at hx
      | some c =>
        simp only [applyOp, addDependency, hc]
        exact installCurrent_inv st c _ hnd hmem hc rfl
    | removeDependency taskId depTaskId now =>
      cases hc : st.currentProject with
      | none =>
        constructor
        · simpa [applyOp, removeDependency, hc, noProjectFailure] using hnd
        · intro x hx
          simp [applyOp, removeDependency, hc, noProjectFailure] at hx
      | some c =>
        simp only [applyOp, removeDependency, hc]
        exact installCurrent_inv st c _ hnd hmem hc rfl
    | clearError =>
      exact ⟨by simpa [applyOp, clearError] using hnd,
        fun x hx => hmem x (by simpa [applyOp, clearError] using hx)⟩
    | clearCache errMsg =>
      cases errMsg with
      | none =>
        constructor
        · simp [applyOp, clearCache]
        · intro x hx
          simp [applyOp, clearCache] at hx
      | some m =>
        constructor
        · simp [applyOp, clearCache]
        · intro x hx
          simp [applyOp, clearCache] at hx
    | validateAndFixDates =>
      exact validateAndFixDates_inv st hnd hmem
    | initStore =>
      simp only [applyOp, initStore]
      exact validateAndFixDates_inv st hnd hmem
    | loadDemoProject pid t0 t1 t2 t3 t4 now =>
      have hfresh : pid ∉ st.projects.map (fun p => p.id) := hwf
      constructor
      · simp only [applyOp, loadDemoProject, List.map_append, List.map_cons,
          List.map_nil]
        exact List.Nodup.append hnd (List.nodup_singleton _)
          (fun x hx hx' => by
            simp only [List.mem_singleton] at hx'
            rw [hx'] at hx
            exact hfresh hx)
      · intro x hx
        simp only [applyOp, loadDemoProject, Option.some.injEq] at hx
        subst hx
        simp [applyOp, loadDemoProject]

/-- With pairwise distinct ids, filtering the project list by a member's
id yields exactly that member. -/
theorem filter_id_eq_single (ps : List Project) (c : Project)
    (hnd : (ps.map (fun p => p.id)).Nodup) (hc : c ∈ ps) :
    ps.filter (fun p => p.id == c.id) = [c] := by
  induction ps with
  | nil => cases hc
  | cons a ps ih =>
    simp only [List.map_cons, List.nodup_cons] at hnd
    obtain ⟨hna, hnd'⟩ := hnd
    rcases List.mem_cons.mp hc with rfl | hc'
    · have h1 : (c.id == c.id) = true := by simp
      simp only [List.filter_cons, h1, if_true]
      have hnil : ps.filter (fun p => p.id == c.id) = [] := by
        apply List.filter_eq_nil_iff.mpr
        intro p hp hbeq
        exact hna (List.mem_map.mpr ⟨p, hp, eq_of_beq hbeq⟩)
      rw [hnil]
    · have hne : (a.id == c.id) = false := by
        apply beq_eq_false_iff_ne.mpr
        intro he
        exact hna (List.mem_map.mpr ⟨c, hc', he.symm⟩)
      simp only [List.filter_cons, hne]
      simpa using ih hnd' hc'

/-- C9: in every reachable store state, `currentProject` is `null` or is,
field for field, the unique entry of `projects` carrying its id — every
mutating operation that rebuilds a project installs the same rebuilt
object both as `currentProject` and in `projects`. -/
theorem c9_currentProject_mirrored (st : StoreState) (h : Reachable st) :
    st.currentProject = none ∨
    ∃ c, st.currentProject = some c ∧
      st.projects.filter (fun p => p.id == c.id) = [c] := by
  obtain ⟨hnd, hmem⟩ := reachable_inv st h
  cases hc : st.currentProject with
  | none => exact Or.inl rfl
  | some c =>
    exact Or.inr ⟨c, rfl, filter_id_eq_single st.projects c hnd (hmem c hc)⟩

/-- C9, witness: the theorem at the initial (trivially reachable)
state. -/
theorem c9_witness :
    initialState.currentProject = none ∨
    ∃ c, initialState.currentProject = some c ∧
      initialState.projects.filter (fun p => p.id == c.id) = [c] :=
  c9_currentProject_mirrored initialState Reachable.init

end GanttApp
